import Mathlib

/-!
Verification of the aix_cpu_watch EDA event source
(plugins/event_source/aix_cpu_watch.py).

The embedding below translates the poller into Lean:
text handling is modelled over ASCII strings, Python floats are modelled
as exact rationals, the asynchronous per-host poll task is modelled as a
total function from the outcome of the remote command to the list of
events it puts on the output queue, and the paramiko SSH client is
modelled as an explicit state machine over an abstract network
environment.
-/

namespace AixCpuWatch

/-! ### Python text primitives (ASCII model) -/

/-- Whitespace characters recognised by Python str.split / str.strip
(ASCII fragment). -/
def pyIsSpace (c : Char) : Bool :=
  c = ' ' || c = '\t' || c = '\n' || c = '\r' || c = '\x0b' || c = '\x0c'

/-- Split a character list at every separator character; pieces between
adjacent separators are empty. -/
def pySplitAux (sep : Char → Bool) : List Char → List Char → List (List Char)
  | [], acc => [acc.reverse]
  | c :: cs, acc =>
      if sep c then acc.reverse :: pySplitAux sep cs []
      else pySplitAux sep cs (c :: acc)

/-- Split a string at every character satisfying the separator test. -/
def pySplit (sep : Char → Bool) (s : String) : List String :=
  (pySplitAux sep s.data []).map String.mk

/-- Python str.split() with no argument: split on whitespace runs and
drop empty pieces. -/
def pySplitWs (s : String) : List String :=
  (pySplit pyIsSpace s).filter (fun t => !t.isEmpty)

/-- Python str.strip(): drop leading and trailing whitespace. -/
def pyStrip (s : String) : String :=
  String.mk (((s.data.dropWhile pyIsSpace).reverse.dropWhile pyIsSpace).reverse)

/-- Line separator characters: models Python str.splitlines on texts
whose line breaks are LF, CR or CRLF.  Splitting CRLF yields an empty
piece, which every use below filters out as blank. -/
def pyIsLineSep (c : Char) : Bool := c = '\n' || c = '\r'

/-- Python str.splitlines (ASCII model). -/
def pySplitLines (s : String) : List String := pySplit pyIsLineSep s

/-! ### Numeric token recognition and decimal parsing -/

/-- Python str.replace with count 1 for the dot character: remove the
first dot, keep everything else. -/
def removeFirstDot : List Char → List Char
  | [] => []
  | c :: cs => if c = '.' then cs else c :: removeFirstDot cs

/-- The numeric-token test of compute_cpu_usage_from_vmstat, translated
from the source filter: t.replace(dot, empty, 1).isdigit(). -/
def pyIsNumTok (t : String) : Bool :=
  !(removeFirstDot t.data).isEmpty && (removeFirstDot t.data).all Char.isDigit

/-- Value of a list of decimal digit characters. -/
def digitsToNat (cs : List Char) : Nat :=
  cs.foldl (fun a c => 10 * a + (c.toNat - 48)) 0

/-- Python float(token) on a token accepted by the numeric filter:
digits, optionally with one dot.  Modelled as the exact rational value
of the decimal literal. -/
def parseDecTok (t : String) : ℚ :=
  match t.data.span (fun c => c ≠ '.') with
  | (intPart, []) => (digitsToNat intPart : ℚ)
  | (intPart, _ :: frac) =>
      (digitsToNat intPart : ℚ) + (digitsToNat frac : ℚ) / 10 ^ frac.length

/-- Spec-side characterisation of a non-negative decimal number token:
only digits and dots, at most one dot, at least one digit. -/
def specNonNegDecimal (t : String) : Bool :=
  t.data.all (fun c => c.isDigit || c = '.') &&
    decide (t.data.countP (fun c => decide (c = '.')) ≤ 1) &&
    t.data.any Char.isDigit

/-! ### The sampler: compute_cpu_usage_from_vmstat -/

/-- A parsed vmstat reading: the four trailing numeric columns and the
derived usage percentage. -/
structure VmstatReading where
  us : ℚ
  sy : ℚ
  id : ℚ
  wa : ℚ
  usage : ℚ
deriving DecidableEq

/-- The numeric tokens of a vmstat line, exactly as the source computes
them: strip, split on whitespace, keep tokens passing the digit test. -/
def vmstatNumToks (line : String) : List String :=
  (pySplitWs (pyStrip line)).filter pyIsNumTok

/-- Translation of compute_cpu_usage_from_vmstat: take the last four
numeric tokens as us, sy, id, wa and return usage = us + sy + wa;
with fewer than four numeric tokens raise ValueError. -/
def compute_cpu_usage_from_vmstat (line : String) : Except String VmstatReading :=
  match (vmstatNumToks line).reverse with
  | wa :: idl :: sy :: us :: _ =>
      .ok ⟨parseDecTok us, parseDecTok sy, parseDecTok idl, parseDecTok wa,
           parseDecTok us + parseDecTok sy + parseDecTok wa⟩
  | _ => .error ("Unexpected vmstat output: " ++ line)

/-! ### Python round to two decimals -/

/-- Round to the nearest integer, ties to even (Python round). -/
def roundHalfEven (q : ℚ) : ℤ :=
  if q - ⌊q⌋ < 1 / 2 then ⌊q⌋
  else if 1 / 2 < q - ⌊q⌋ then ⌊q⌋ + 1
  else if ⌊q⌋ % 2 = 0 then ⌊q⌋ else ⌊q⌋ + 1

/-- Python round(x, 2) on the exact rational model. -/
def pyRound2 (q : ℚ) : ℚ := (roundHalfEven (q * 100) : ℚ) / 100

/-! ### Events

The source builds events as Python dictionaries with a fixed literal
layout.  We model a dictionary as an association list of field names to
values, so that the exact set and order of fields is observable. -/

/-- A JSON-like event field value. -/
inductive JVal where
  | s (v : String)
  | q (v : ℚ)
  | b (v : Bool)
  | obj (fields : List (String × JVal))

/-- An emitted event: the association list of the Python dict literal. -/
abbrev Event := List (String × JVal)

/-- The success event dict literal of poll_one, field for field. -/
def successEvent (ts host : String) (cpu : VmstatReading) (threshold : ℚ)
    (crossed : Bool) : Event :=
  [("timestamp", .s ts),
   ("host", .s host),
   ("cpu", .obj [("percent", .q (pyRound2 cpu.usage)),
                 ("us", .q cpu.us),
                 ("sy", .q cpu.sy),
                 ("id", .q cpu.id),
                 ("wa", .q cpu.wa)]),
   ("threshold", .q threshold),
   ("crossed", .b crossed),
   ("source", .s "aix_cpu_watch")]

/-- The error event dict literal of poll_one, field for field. -/
def errorEvent (ts host msg : String) : Event :=
  [("timestamp", .s ts),
   ("host", .s host),
   ("error", .s msg),
   ("source", .s "aix_cpu_watch"),
   ("severity", .s "error")]

/-- Field names of an event, in order. -/
def eventKeys (ev : Event) : List String := ev.map Prod.fst

/-! ### The per-host poll task

The five failure kinds that can escape cli.run into the poll task, as an
explicit error type; the message is the Python str() of the exception. -/

/-- Failure kinds raised by the SSH layer during one tick. -/
inductive RunError where
  | connectError (msg : String)
  | authError (msg : String)
  | commandError (msg : String)
  | timeoutError (msg : String)
  | sessionError (msg : String)
deriving DecidableEq

/-- Python str(e) of a caught SSH-layer exception. -/
def runErrorMsg : RunError → String
  | .connectError m => m
  | .authError m => m
  | .commandError m => m
  | .timeoutError m => m
  | .sessionError m => m

/-- Last non-blank line of the command output; Python list indexing with
negative one raises IndexError on an empty list. -/
def lastNonBlank (out : String) : Option String :=
  ((pySplitLines out).filter (fun l => !(pyStrip l).isEmpty)).getLast?

/-- Translation of the poll_one coroutine body.  Its input is the result
of running the sample command over SSH (an exception or the decoded
output), the configured threshold and emission policy, and the timestamp
taken when the event dict is built; its output is the list of events the
task puts on the output queue.  The task catches every exception and
converts it into one error event, so the translation is a total
function with no error channel: no exception reaches the scheduler. -/
def poll_one (res : Except RunError String) (threshold : ℚ)
    (emit_only_above : Bool) (ts host : String) : List Event :=
  match res with
  | .error e => [errorEvent ts host (runErrorMsg e)]
  | .ok out =>
    match lastNonBlank out with
    | none => [errorEvent ts host "list index out of range"]
    | some line =>
      if line.isEmpty then [errorEvent ts host "vmstat returned no data"]
      else
        match compute_cpu_usage_from_vmstat line with
        | .error msg => [errorEvent ts host msg]
        | .ok cpu =>
          let crossed : Bool := decide (threshold ≤ cpu.usage)
          if !emit_only_above || crossed then
            [successEvent ts host cpu threshold crossed]
          else []

/-- One tick: the events contributed by each host task, in host order;
asyncio.gather runs them concurrently and every task terminates with its
own event list. -/
def tickEvents (results : List (String × Except RunError String))
    (threshold : ℚ) (emit_only_above : Bool) (ts : String) : List (List Event) :=
  results.map (fun p => poll_one p.2 threshold emit_only_above ts p.1)

/-! ### The SSH session state machine (class _SSHClient)

paramiko itself is an external collaborator; it is modelled by an
abstract network environment saying whether the transport is reachable,
which key types the key file loads as, and which credentials the server
accepts. -/

/-- Abstract network environment for one host. -/
structure NetEnv where
  reachable : Bool
  rsaLoadOk : Bool
  ecdsaLoadOk : Bool
  rsaAccepted : Bool
  ecdsaAccepted : Bool
  pwAccepted : String → Bool

/-- A loaded private key. -/
inductive PKey where
  | rsa
  | ecdsa
deriving DecidableEq

/-- Whether the server accepts a loaded key. -/
def keyAccepted (env : NetEnv) : PKey → Bool
  | .rsa => env.rsaAccepted
  | .ecdsa => env.ecdsaAccepted

/-- The underlying paramiko.SSHClient handle: it exists from the moment
the constructor runs, and is connected only after connect succeeded. -/
structure ParamikoHandle where
  connected : Bool
deriving DecidableEq

/-- State of one _SSHClient instance (the fields the state machine
reads): host, credentials and the private client attribute. -/
structure SSHClientState where
  host : String
  key_path : Option String
  password : Option String
  client : Option ParamikoHandle
deriving DecidableEq

/-- Key loading in _SSHClient.connect: try RSAKey.from_private_key_file,
on exception try ECDSAKey.from_private_key_file, on exception give up
with no key. -/
def loadPKey (env : NetEnv) : Option String → Option PKey
  | none => none
  | some _ =>
      if env.rsaLoadOk then some .rsa
      else if env.ecdsaLoadOk then some .ecdsa
      else none

/-- paramiko SSHClient.connect with look_for_keys disabled and no agent
keys: establish the transport, then try the explicit key if given, then
the password if given; raise an authentication error when every supplied
method is rejected or none is supplied. -/
def paramikoConnect (env : NetEnv) (password : Option String)
    (pkey : Option PKey) : Except RunError Unit :=
  if !env.reachable then .error (.connectError "Unable to connect")
  else
    match pkey with
    | some k =>
        if keyAccepted env k then .ok ()
        else
          match password with
          | some p => if env.pwAccepted p then .ok ()
                      else .error (.authError "Authentication failed.")
          | none => .error (.authError "Authentication failed.")
    | none =>
        match password with
        | some p => if env.pwAccepted p then .ok ()
                    else .error (.authError "Authentication failed.")
        | none => .error (.authError "No authentication methods available")

/-- Translation of _SSHClient.connect.  If a client handle is present,
return at once.  Otherwise a fresh paramiko.SSHClient is assigned to the
client attribute first, the key file is loaded, and the paramiko connect
call runs with the password suppressed whenever a key loaded; on an
exception the assigned handle stays behind unconnected. -/
def SSHClient_connect (env : NetEnv) (s : SSHClientState) :
    SSHClientState × Except RunError Unit :=
  if s.client.isSome then (s, .ok ())
  else
    let pkey := loadPKey env s.key_path
    match paramikoConnect env (if pkey.isSome then none else s.password) pkey with
    | .ok () => ({ s with client := some ⟨true⟩ }, .ok ())
    | .error e => ({ s with client := some ⟨false⟩ }, .error e)

/-- What one exec_command call observed remotely: decoded stdout and
stderr of the sample command. -/
structure ExecOutcome where
  out : String
  err : String
deriving DecidableEq

/-- The stdout/stderr policy of _SSHClient.run: non-empty stderr with
empty stdout raises RuntimeError, anything else returns stdout. -/
def commandResult (host out err : String) : Except RunError String :=
  if err ≠ "" ∧ out = "" then
    .error (.commandError ("Command error on " ++ host ++ ": " ++ pyStrip err))
  else .ok out

/-- exec_command on the current client attribute: on an unconnected
handle paramiko has no transport and the call raises before anything
runs remotely. -/
def execPhase (s : SSHClientState) (o : ExecOutcome) : Except RunError String :=
  match s.client with
  | none => .error (.sessionError "no client")
  | some h =>
      if h.connected then commandResult s.host o.out o.err
      else .error (.sessionError "NoneType object has no attribute open_session")

/-- Translation of _SSHClient.run: connect only when the client
attribute is unset, then exec_command and apply the stdout/stderr
policy. -/
def SSHClient_run (env : NetEnv) (s : SSHClientState) (o : ExecOutcome) :
    SSHClientState × Except RunError String :=
  if s.client.isNone then
    match SSHClient_connect env s with
    | (s', .error e) => (s', .error e)
    | (s', .ok ()) => (s', execPhase s' o)
  else (s, execPhase s o)

/-- Translation of _SSHClient.close: close the underlying client when
present, and in every case clear the client attribute. -/
def SSHClient_close (s : SSHClientState) : SSHClientState :=
  match s.client with
  | some _ => { s with client := none }
  | none => { s with client := none }

/-! ### Scheduler sleep -/

/-- The inter-tick suspension of the scheduler loop:
asyncio.sleep(max(0, interval - elapsed)). -/
def sleepDuration (interval elapsed : ℚ) : ℚ := max 0 (interval - elapsed)

/-! ## Helper lemmas -/

theorem removeFirstDot_dot (cs : List Char) : removeFirstDot ('.' :: cs) = cs := by
  simp [removeFirstDot]

theorem removeFirstDot_cons_ne {c : Char} (cs : List Char) (hc : ¬ c = '.') :
    removeFirstDot (c :: cs) = c :: removeFirstDot cs := by
  simp [removeFirstDot, hc]

/-- A list of digit-or-dot characters with no dot is a list of digits. -/
theorem all_digit_iff_no_dot (cs : List Char) :
    cs.all Char.isDigit = true ↔
      (cs.all (fun c => c.isDigit || c = '.') = true ∧
        cs.countP (fun c => decide (c = '.')) = 0) := by
  induction cs with
  | nil => simp
  | cons c cs ih =>
    by_cases hc : c = '.'
    · subst hc
      simp [List.all_cons, List.countP_cons]
    · simp [List.all_cons, List.countP_cons, hc, ih]
      tauto

/-- Removing the first dot leaves only digits exactly when the list has
only digits and dots with at most one dot. -/
theorem removeFirstDot_all_digit (cs : List Char) :
    ((removeFirstDot cs).all Char.isDigit = true) ↔
      (cs.all (fun c => c.isDigit || c = '.') = true ∧
        cs.countP (fun c => decide (c = '.')) ≤ 1) := by
  induction cs with
  | nil => simp [removeFirstDot]
  | cons c cs ih =>
    by_cases hc : c = '.'
    · subst hc
      rw [removeFirstDot_dot, all_digit_iff_no_dot]
      simp [List.all_cons, List.countP_cons]
    · rw [removeFirstDot_cons_ne cs hc]
      simp [List.all_cons, List.countP_cons, hc, ih]
      tauto

theorem any_digit_of_all (cs : List Char) (h : cs.all Char.isDigit = true) :
    cs.any Char.isDigit = !cs.isEmpty := by
  cases cs with
  | nil => rfl
  | cons c cs =>
    simp only [List.all_cons, Bool.and_eq_true] at h
    simp [List.any_cons, h.1]

theorem mem_removeFirstDot_of_mem {cs : List Char} {c : Char}
    (hm : c ∈ cs) (hc : ¬ c = '.') : c ∈ removeFirstDot cs := by
  induction cs with
  | nil => cases hm
  | cons d cs ih =>
    by_cases hd : d = '.'
    · subst hd
      rw [removeFirstDot_dot]
      rcases List.mem_cons.mp hm with h | h
      · exact absurd h hc
      · exact h
    · rw [removeFirstDot_cons_ne cs hd]
      rcases List.mem_cons.mp hm with h | h
      · exact h ▸ List.mem_cons_self _ _
      · exact List.mem_cons_of_mem _ (ih h)

theorem mem_of_mem_removeFirstDot {cs : List Char} {c : Char}
    (hm : c ∈ removeFirstDot cs) : c ∈ cs := by
  induction cs with
  | nil => cases hm
  | cons d cs ih =>
    by_cases hd : d = '.'
    · subst hd
      rw [removeFirstDot_dot] at hm
      exact List.mem_cons_of_mem _ hm
    · rw [removeFirstDot_cons_ne cs hd] at hm
      rcases List.mem_cons.mp hm with h | h
      · exact h ▸ List.mem_cons_self _ _
      · exact List.mem_cons_of_mem _ (ih h)

theorem not_dot_of_isDigit {c : Char} (h : c.isDigit = true) : ¬ c = '.' := by
  intro he
  subst he
  exact absurd h (by decide)

/-- The numeric-token filter of the source agrees with the spec
characterisation of a non-negative decimal number token. -/
theorem pyIsNumTok_eq_spec (t : String) : pyIsNumTok t = specNonNegDecimal t := by
  rw [Bool.eq_iff_iff]
  unfold pyIsNumTok specNonNegDecimal
  simp only [Bool.and_eq_true, Bool.not_eq_true', List.isEmpty_eq_false,
    decide_eq_true_iff, List.any_eq_true]
  constructor
  · rintro ⟨hne, hall⟩
    have h2 := (removeFirstDot_all_digit t.data).mp hall
    refine ⟨⟨h2.1, h2.2⟩, ?_⟩
    rcases List.exists_mem_of_ne_nil _ hne with ⟨c, hc⟩
    have hd : c.isDigit = true := by
      have := List.all_eq_true.mp hall
      exact this c hc
    exact ⟨c, mem_of_mem_removeFirstDot hc, hd⟩
  · rintro ⟨⟨h1, h2⟩, c, hmem, hd⟩
    refine ⟨?_, (removeFirstDot_all_digit t.data).mpr ⟨h1, h2⟩⟩
    intro hnil
    have : c ∈ removeFirstDot t.data := mem_removeFirstDot_of_mem hmem (not_dot_of_isDigit hd)
    rw [hnil] at this
    cases this

theorem parseDecTok_nonneg (t : String) : 0 ≤ parseDecTok t := by
  unfold parseDecTok
  rcases h : t.data.span (fun c => c ≠ '.') with ⟨intPart, rest⟩
  cases rest with
  | nil => simp only [h]; positivity
  | cons d frac => simp only [h]; positivity

theorem drop_last_four {α : Type} {l : List α} {a b c d : α} {rest : List α}
    (h : l.reverse = d :: c :: b :: a :: rest) :
    l.drop (l.length - 4) = [a, b, c, d] := by
  have hl : l = rest.reverse ++ [a, b, c, d] := by
    have h2 := congrArg List.reverse h
    rw [List.reverse_reverse] at h2
    rw [h2]
    simp
  rw [hl, List.length_append, List.length_reverse]
  simp only [List.length_cons, List.length_nil]
  rw [show rest.length + 4 - 4 = rest.reverse.length by simp]
  exact List.drop_left _ _

/-- The guarded empty-line branch of poll_one is dead code: the last
non-blank line is never the empty string. -/
theorem lastNonBlank_not_isEmpty {out line : String}
    (h : lastNonBlank out = some line) : line.isEmpty = false := by
  have hmem : line ∈ (pySplitLines out).filter (fun l => !(pyStrip l).isEmpty) := by
    rcases List.getLast?_eq_some_iff.mp h with ⟨ys, hys⟩
    rw [hys]
    simp
  have hp := (List.mem_filter.mp hmem).2
  cases hb : line.isEmpty with
  | false => rfl
  | true =>
    exfalso
    have hl : line = "" := (String.isEmpty_iff line).mp hb
    rw [hl] at hp
    exact absurd hp (by decide)

theorem poll_one_err (e : RunError) (th : ℚ) (flag : Bool) (ts host : String) :
    poll_one (.error e) th flag ts host = [errorEvent ts host (runErrorMsg e)] := rfl

theorem poll_one_noline {out : String} (th : ℚ) (flag : Bool) (ts host : String)
    (h : lastNonBlank out = none) :
    poll_one (.ok out) th flag ts host = [errorEvent ts host "list index out of range"] := by
  simp [poll_one, h]

theorem poll_one_parse_err {out line msg : String} (th : ℚ) (flag : Bool) (ts host : String)
    (h1 : lastNonBlank out = some line)
    (h2 : compute_cpu_usage_from_vmstat line = .error msg) :
    poll_one (.ok out) th flag ts host = [errorEvent ts host msg] := by
  have hne := lastNonBlank_not_isEmpty h1
  simp [poll_one, h1, hne, h2]

theorem poll_one_ok {out line : String} {r : VmstatReading} (th : ℚ) (flag : Bool)
    (ts host : String)
    (h1 : lastNonBlank out = some line)
    (h2 : compute_cpu_usage_from_vmstat line = .ok r) :
    poll_one (.ok out) th flag ts host =
      if !flag || decide (th ≤ r.usage)
      then [successEvent ts host r th (decide (th ≤ r.usage))] else [] := by
  have hne := lastNonBlank_not_isEmpty h1
  simp [poll_one, h1, hne, h2]

/-- On a disconnected session, connect is the paramiko connect call with
the password suppressed exactly when a key loaded. -/
theorem connect_snd (env : NetEnv) (s : SSHClientState) (hc : s.client = none) :
    (SSHClient_connect env s).2 =
      paramikoConnect env (if (loadPKey env s.key_path).isSome then none else s.password)
        (loadPKey env s.key_path) := by
  simp only [SSHClient_connect, hc, Option.isSome_none]
  cases hp : paramikoConnect env
      (if (loadPKey env s.key_path).isSome then none else s.password)
      (loadPKey env s.key_path) with
  | ok u => cases u; simp [hp]
  | error e => simp [hp]

theorem floor_79999_div_10 : ⌊(79999:ℚ)/10⌋ = 7999 := by
  rw [Int.floor_eq_iff]
  constructor
  · push_cast
    norm_num
  · push_cast
    norm_num

theorem pyRound2_79999 : pyRound2 ((79999:ℚ)/1000) = 80 := by
  unfold pyRound2 roundHalfEven
  rw [show (79999:ℚ)/1000 * 100 = 79999/10 by norm_num]
  rw [floor_79999_div_10]
  rw [show (79999:ℚ)/10 - ((7999:ℤ):ℚ) = 9/10 by push_cast; norm_num]
  rw [if_neg (by norm_num), if_pos (by norm_num)]
  push_cast
  norm_num

theorem pyRound2_80 : pyRound2 ((80:ℚ)) = 80 := by
  unfold pyRound2 roundHalfEven
  rw [show (80:ℚ) * 100 = 8000 by norm_num]
  rw [show ⌊(8000:ℚ)⌋ = 8000 by rw [Int.floor_eq_iff]; push_cast; norm_num]
  rw [show (8000:ℚ) - ((8000:ℤ):ℚ) = 0 by push_cast; norm_num]
  rw [if_pos (by norm_num)]
  push_cast
  norm_num

/-! ## Claim theorems -/

/-- C1: every failure during a tick of a per-host poll task, whether an
SSH-layer exception (connect, auth, command, timeout) or a failure of
the line selection or parse steps, makes the task emit exactly one
error event, independently of the emit_only_above policy flag; the
translation of the task is a total function into event lists, so no
exception escapes to the scheduler, and within a tick every host
contributes its own event list unaffected by the other hosts. -/
theorem poll_task_failure_emits_one_error_event :
    (∀ (e : RunError) (threshold : ℚ) (flag flag' : Bool) (ts host : String),
      poll_one (.error e) threshold flag ts host = [errorEvent ts host (runErrorMsg e)] ∧
      poll_one (.error e) threshold flag ts host =
        poll_one (.error e) threshold flag' ts host) ∧
    (∀ (out : String) (threshold : ℚ) (flag : Bool) (ts host : String),
      lastNonBlank out = none →
      poll_one (.ok out) threshold flag ts host =
        [errorEvent ts host "list index out of range"]) ∧
    (∀ (out line msg : String) (threshold : ℚ) (flag : Bool) (ts host : String),
      lastNonBlank out = some line →
      compute_cpu_usage_from_vmstat line = .error msg →
      poll_one (.ok out) threshold flag ts host = [errorEvent ts host msg]) ∧
    (∀ (pre post : List (String × Except RunError String))
      (p : String × Except RunError String) (threshold : ℚ) (flag : Bool) (ts : String),
      tickEvents (pre ++ p :: post) threshold flag ts =
        tickEvents pre threshold flag ts ++
          poll_one p.2 threshold flag ts p.1 :: tickEvents post threshold flag ts) := by
  refine ⟨fun e th flag flag' ts host => ⟨poll_one_err e th flag ts host, rfl⟩,
    fun out th flag ts host h => poll_one_noline th flag ts host h,
    fun out line msg th flag ts host h1 h2 => poll_one_parse_err th flag ts host h1 h2,
    fun pre post p th flag ts => ?_⟩
  simp [tickEvents]

/-- C1 witness: a timeout failure, an empty output and a non-numeric
output each yield exactly the one expected error event. -/
theorem poll_task_failure_witness :
    poll_one (.error (.timeoutError "timed out")) 80 true "t" "h" =
      [errorEvent "t" "h" "timed out"] ∧
    poll_one (.ok "") 90 true "t" "h" = [errorEvent "t" "h" "list index out of range"] ∧
    poll_one (.ok "System configuration") 90 false "t" "h" =
      [errorEvent "t" "h" "Unexpected vmstat output: System configuration"] :=
  ⟨(poll_task_failure_emits_one_error_event.1 (.timeoutError "timed out")
      80 true true "t" "h").1,
   poll_task_failure_emits_one_error_event.2.1 "" 90 true "t" "h" (by decide),
   poll_task_failure_emits_one_error_event.2.2.1 "System configuration"
      "System configuration" "Unexpected vmstat output: System configuration"
      90 false "t" "h" (by decide) rfl⟩

/-- C2: the sampler keeps exactly the whitespace tokens that are
non-negative decimal numerals; with at least four such tokens it reads
the last four, in order, as us, sy, id, wa, returns usage as the sum of
us, sy and wa, and all fields are non-negative; with fewer than four it
fails with the ValueError carrying the offending line. -/
theorem sampler_extracts_last_four_numeric_tokens (line : String) :
    (∀ t : String, pyIsNumTok t = specNonNegDecimal t) ∧
    (4 ≤ (vmstatNumToks line).length →
      ∃ us sy idl wa : String,
        (vmstatNumToks line).drop ((vmstatNumToks line).length - 4) = [us, sy, idl, wa] ∧
        compute_cpu_usage_from_vmstat line =
          .ok ⟨parseDecTok us, parseDecTok sy, parseDecTok idl, parseDecTok wa,
               parseDecTok us + parseDecTok sy + parseDecTok wa⟩ ∧
        0 ≤ parseDecTok us ∧ 0 ≤ parseDecTok sy ∧ 0 ≤ parseDecTok idl ∧
        0 ≤ parseDecTok wa) ∧
    ((vmstatNumToks line).length < 4 ↔
      compute_cpu_usage_from_vmstat line = .error ("Unexpected vmstat output: " ++ line)) := by
  refine ⟨pyIsNumTok_eq_spec, ?_⟩
  have hlen : (vmstatNumToks line).reverse.length = (vmstatNumToks line).length :=
    List.length_reverse _
  rcases hr : (vmstatNumToks line).reverse with _ | ⟨wa, _ | ⟨idl, _ | ⟨sy, _ | ⟨us, rest⟩⟩⟩⟩ <;>
    rw [hr] at hlen <;> simp only [List.length_cons, List.length_nil] at hlen
  · have hl4 : (vmstatNumToks line).length < 4 := by omega
    refine ⟨fun h4 => absurd h4 (by omega), ?_⟩
    simp only [compute_cpu_usage_from_vmstat, hr]
    exact ⟨fun _ => trivial, fun _ => hl4⟩
  · have hl4 : (vmstatNumToks line).length < 4 := by omega
    refine ⟨fun h4 => absurd h4 (by omega), ?_⟩
    simp only [compute_cpu_usage_from_vmstat, hr]
    exact ⟨fun _ => trivial, fun _ => hl4⟩
  · have hl4 : (vmstatNumToks line).length < 4 := by omega
    refine ⟨fun h4 => absurd h4 (by omega), ?_⟩
    simp only [compute_cpu_usage_from_vmstat, hr]
    exact ⟨fun _ => trivial, fun _ => hl4⟩
  · have hl4 : (vmstatNumToks line).length < 4 := by omega
    refine ⟨fun h4 => absurd h4 (by omega), ?_⟩
    simp only [compute_cpu_usage_from_vmstat, hr]
    exact ⟨fun _ => trivial, fun _ => hl4⟩
  · constructor
    · intro h4
      refine ⟨us, sy, idl, wa, drop_last_four hr, ?_,
        parseDecTok_nonneg us, parseDecTok_nonneg sy, parseDecTok_nonneg idl,
        parseDecTok_nonneg wa⟩
      simp only [compute_cpu_usage_from_vmstat, hr]
    · constructor
      · intro hlt
        omega
      · intro hcontra
        simp only [compute_cpu_usage_from_vmstat, hr] at hcontra
        cases hcontra

/-- C2 witness: on a concrete four-token vmstat line the sampler
returns the four fields and their sum. -/
theorem sampler_last_four_witness :
    ∃ us sy idl wa : String,
      (vmstatNumToks "12.0 3.0 80.0 5.0").drop
          ((vmstatNumToks "12.0 3.0 80.0 5.0").length - 4) = [us, sy, idl, wa] ∧
      compute_cpu_usage_from_vmstat "12.0 3.0 80.0 5.0" =
        .ok ⟨parseDecTok us, parseDecTok sy, parseDecTok idl, parseDecTok wa,
             parseDecTok us + parseDecTok sy + parseDecTok wa⟩ ∧
      0 ≤ parseDecTok us ∧ 0 ≤ parseDecTok sy ∧ 0 ≤ parseDecTok idl ∧
      0 ≤ parseDecTok wa :=
  (sampler_extracts_last_four_numeric_tokens "12.0 3.0 80.0 5.0").2.1 (by decide)

/-- C3: on the success path the crossed flag is the inclusive
comparison of the unrounded usage against the threshold, the boundary
case where usage equals the threshold counts as crossed, and an event
is emitted exactly when the policy flag is off or the threshold is
crossed. -/
theorem threshold_crossing_and_emission (out line : String) (r : VmstatReading)
    (threshold : ℚ) (flag : Bool) (ts host : String)
    (h1 : lastNonBlank out = some line)
    (h2 : compute_cpu_usage_from_vmstat line = .ok r) :
    poll_one (.ok out) threshold flag ts host =
      (if !flag || decide (threshold ≤ r.usage)
       then [successEvent ts host r threshold (decide (threshold ≤ r.usage))] else []) ∧
    (threshold ≤ r.usage ↔ decide (threshold ≤ r.usage) = true) ∧
    (r.usage = threshold → decide (threshold ≤ r.usage) = true) ∧
    (poll_one (.ok out) threshold flag ts host ≠ [] ↔
      (flag = false ∨ threshold ≤ r.usage)) := by
  have hmain := poll_one_ok threshold flag ts host h1 h2
  refine ⟨hmain, decide_eq_true_iff.symm, ?_, ?_⟩
  · intro he
    rw [he]
    simp
  · rw [hmain]
    by_cases hc : (!flag || decide (threshold ≤ r.usage)) = true
    · rw [if_pos hc]
      simp only [Bool.or_eq_true, Bool.not_eq_true', decide_eq_true_iff] at hc
      simp [hc]
    · rw [if_neg hc]
      simp only [Bool.or_eq_true, Bool.not_eq_true', decide_eq_true_iff, not_or] at hc
      simp [hc.1, hc.2]

/-- C3 witness: a concrete line with usage 20 against threshold 80 and
the always-emit policy emits a non-empty event list. -/
theorem threshold_crossing_witness :
    poll_one (.ok "12 3 80 5") 80 false "t" "h" ≠ [] ↔
      (false = false ∨ (80:ℚ) ≤ (⟨parseDecTok "12", parseDecTok "3", parseDecTok "80",
        parseDecTok "5",
        parseDecTok "12" + parseDecTok "3" + parseDecTok "5"⟩ : VmstatReading).usage) :=
  (threshold_crossing_and_emission "12 3 80 5" "12 3 80 5"
    ⟨parseDecTok "12", parseDecTok "3", parseDecTok "80", parseDecTok "5",
     parseDecTok "12" + parseDecTok "3" + parseDecTok "5"⟩
    80 false "t" "h" rfl rfl).2.2.2

/-- C4: every event the poll task emits is either a success event with
exactly the fields timestamp, host, cpu, threshold, crossed, source,
whose cpu object carries percent (rounded to two decimals), us, sy, id,
wa, with source aix_cpu_watch and no error or severity field, or an
error event with exactly the fields timestamp, host, error, source,
severity, with severity error, source aix_cpu_watch and no cpu,
threshold or crossed field. -/
theorem emitted_event_field_layout (res : Except RunError String) (threshold : ℚ)
    (flag : Bool) (ts host : String) (ev : Event)
    (hev : ev ∈ poll_one res threshold flag ts host) :
    ((∃ r : VmstatReading,
        ev = successEvent ts host r threshold (decide (threshold ≤ r.usage)) ∧
        eventKeys ev = ["timestamp", "host", "cpu", "threshold", "crossed", "source"] ∧
        ev.lookup "cpu" = some (.obj [("percent", .q (pyRound2 r.usage)), ("us", .q r.us),
          ("sy", .q r.sy), ("id", .q r.id), ("wa", .q r.wa)]) ∧
        ev.lookup "source" = some (.s "aix_cpu_watch") ∧
        ev.lookup "error" = none ∧ ev.lookup "severity" = none) ∨
     (∃ msg : String,
        ev = errorEvent ts host msg ∧
        eventKeys ev = ["timestamp", "host", "error", "source", "severity"] ∧
        ev.lookup "severity" = some (.s "error") ∧
        ev.lookup "source" = some (.s "aix_cpu_watch") ∧
        ev.lookup "cpu" = none ∧ ev.lookup "threshold" = none ∧
        ev.lookup "crossed" = none)) := by
  have herr : ∀ msg : String, ev = errorEvent ts host msg →
      (∃ msg : String,
        ev = errorEvent ts host msg ∧
        eventKeys ev = ["timestamp", "host", "error", "source", "severity"] ∧
        ev.lookup "severity" = some (.s "error") ∧
        ev.lookup "source" = some (.s "aix_cpu_watch") ∧
        ev.lookup "cpu" = none ∧ ev.lookup "threshold" = none ∧
        ev.lookup "crossed" = none) := by
    intro msg he
    subst he
    exact ⟨msg, rfl, rfl, rfl, rfl, rfl, rfl, rfl⟩
  match res with
  | .error e =>
    rw [poll_one_err e threshold flag ts host] at hev
    exact Or.inr (herr _ (List.mem_singleton.mp hev))
  | .ok out =>
    match hlast : lastNonBlank out with
    | none =>
      rw [poll_one_noline threshold flag ts host hlast] at hev
      exact Or.inr (herr _ (List.mem_singleton.mp hev))
    | some line =>
      match hcomp : compute_cpu_usage_from_vmstat line with
      | .error msg =>
        rw [poll_one_parse_err threshold flag ts host hlast hcomp] at hev
        exact Or.inr (herr _ (List.mem_singleton.mp hev))
      | .ok r =>
        rw [poll_one_ok threshold flag ts host hlast hcomp] at hev
        by_cases hc : (!flag || decide (threshold ≤ r.usage)) = true
        · rw [if_pos hc] at hev
          have he := List.mem_singleton.mp hev
          subst he
          exact Or.inl ⟨r, rfl, rfl, rfl, rfl, rfl, rfl⟩
        · rw [if_neg hc] at hev
          cases hev

/-- C4 witness: the error event emitted for a concrete connect failure
has exactly the error-event layout. -/
theorem event_field_layout_witness :
    ((∃ r : VmstatReading,
        errorEvent "t" "h" "down" =
          successEvent "t" "h" r 80 (decide ((80:ℚ) ≤ r.usage)) ∧
        eventKeys (errorEvent "t" "h" "down") =
          ["timestamp", "host", "cpu", "threshold", "crossed", "source"] ∧
        (errorEvent "t" "h" "down").lookup "cpu" =
          some (.obj [("percent", .q (pyRound2 r.usage)), ("us", .q r.us),
            ("sy", .q r.sy), ("id", .q r.id), ("wa", .q r.wa)]) ∧
        (errorEvent "t" "h" "down").lookup "source" = some (.s "aix_cpu_watch") ∧
        (errorEvent "t" "h" "down").lookup "error" = none ∧
        (errorEvent "t" "h" "down").lookup "severity" = none) ∨
     (∃ msg : String,
        errorEvent "t" "h" "down" = errorEvent "t" "h" msg ∧
        eventKeys (errorEvent "t" "h" "down") =
          ["timestamp", "host", "error", "source", "severity"] ∧
        (errorEvent "t" "h" "down").lookup "severity" = some (.s "error") ∧
        (errorEvent "t" "h" "down").lookup "source" = some (.s "aix_cpu_watch") ∧
        (errorEvent "t" "h" "down").lookup "cpu" = none ∧
        (errorEvent "t" "h" "down").lookup "threshold" = none ∧
        (errorEvent "t" "h" "down").lookup "crossed" = none)) :=
  emitted_event_field_layout (.error (.connectError "down")) 80 true "t" "h"
    (errorEvent "t" "h" "down") (List.mem_singleton.mpr rfl)

/-- C5 evaluation: a host whose first connect attempt fails is left with
a non-connected client handle still assigned; on the next tick, even
with the network restored, run skips the connect call (the client
attribute is set) and exec_command fails on the dead handle, so the
session never attempts a fresh connect, although a fresh connect under
the restored network would succeed. -/
theorem failed_connect_never_retried :
    (SSHClient_connect ⟨false, false, false, false, false, fun p => p == "pw"⟩
        ⟨"h", none, some "pw", none⟩).2 = .error (.connectError "Unable to connect") ∧
    ((SSHClient_connect ⟨false, false, false, false, false, fun p => p == "pw"⟩
        ⟨"h", none, some "pw", none⟩).1).client = some ⟨false⟩ ∧
    (SSHClient_run ⟨true, false, false, false, false, fun p => p == "pw"⟩
        (SSHClient_connect ⟨false, false, false, false, false, fun p => p == "pw"⟩
          ⟨"h", none, some "pw", none⟩).1 ⟨"out", ""⟩).2 =
      .error (.sessionError "NoneType object has no attribute open_session") ∧
    ((SSHClient_run ⟨true, false, false, false, false, fun p => p == "pw"⟩
        (SSHClient_connect ⟨false, false, false, false, false, fun p => p == "pw"⟩
          ⟨"h", none, some "pw", none⟩).1 ⟨"out", ""⟩).1).client = some ⟨false⟩ ∧
    (SSHClient_connect ⟨true, false, false, false, false, fun p => p == "pw"⟩
        ⟨"h", none, some "pw", none⟩).2 = .ok () :=
  ⟨rfl, rfl, rfl, rfl, rfl⟩

/-- C6: on a connected session, run raises the command error exactly
when the remote command wrote to stderr while producing no stdout; in
every other case, including non-empty stdout together with non-empty
stderr, run returns the decoded stdout unchanged and leaves the session
state untouched. -/
theorem run_command_error_policy (env : NetEnv) (s : SSHClientState) (o : ExecOutcome)
    (hc : s.client = some ⟨true⟩) :
    ((SSHClient_run env s o).2 =
        .error (.commandError ("Command error on " ++ s.host ++ ": " ++ pyStrip o.err)) ↔
      (o.err ≠ "" ∧ o.out = "")) ∧
    (¬ (o.err ≠ "" ∧ o.out = "") → (SSHClient_run env s o).2 = .ok o.out) ∧
    (SSHClient_run env s o).1 = s := by
  have hrun : SSHClient_run env s o = (s, commandResult s.host o.out o.err) := by
    simp [SSHClient_run, hc, execPhase]
  rw [hrun]
  unfold commandResult
  by_cases hcond : o.err ≠ "" ∧ o.out = ""
  · rw [if_pos hcond]
    exact ⟨⟨fun _ => hcond, fun _ => rfl⟩, fun hn => absurd hcond hn, rfl⟩
  · rw [if_neg hcond]
    refine ⟨⟨fun habs => ?_, fun h => absurd h hcond⟩, fun _ => rfl, rfl⟩
    cases habs

/-- C6 witness: on a connected session, stderr output together with
stdout output does not raise and stdout is returned unchanged. -/
theorem run_command_error_witness :
    (SSHClient_run ⟨true, false, false, false, false, fun _ => false⟩
      ⟨"h", none, none, some ⟨true⟩⟩ ⟨"out line", "warning"⟩).2 = .ok "out line" :=
  (run_command_error_policy ⟨true, false, false, false, false, fun _ => false⟩
    ⟨"h", none, none, some ⟨true⟩⟩ ⟨"out line", "warning"⟩ rfl).2.1 (by decide)

/-- C7 counterexample: a key path whose key loads as RSA but is
rejected by the server, together with a password the server accepts,
makes connect fail with an authentication error; connecting with that
password alone would have succeeded, so a key-use failure does not fall
back to password authentication, refuting the claim as stated. -/
theorem no_password_fallback_on_key_use_failure :
    (SSHClient_connect ⟨true, true, false, false, false, fun p => p == "pw"⟩
        ⟨"h", some "/k", some "pw", none⟩).2 = .error (.authError "Authentication failed.") ∧
    paramikoConnect ⟨true, true, false, false, false, fun p => p == "pw"⟩ (some "pw") none =
      .ok () :=
  ⟨rfl, rfl⟩

/-- C7 amended: with a key path, connect tries to load the key as RSA
first and then as ECDSA; when the key fails to load, it falls back to
password authentication when a password is supplied; when the key loads
it is the only method attempted and the password is never used, even if
the server rejects the key; with no loadable key and no password,
connect fails with an authentication error. -/
theorem connect_auth_policy_amended (env : NetEnv) (s : SSHClientState)
    (hc : s.client = none) :
    (s.key_path ≠ none → env.rsaLoadOk = true → loadPKey env s.key_path = some .rsa) ∧
    (s.key_path ≠ none → env.rsaLoadOk = false → env.ecdsaLoadOk = true →
      loadPKey env s.key_path = some .ecdsa) ∧
    (∀ k, loadPKey env s.key_path = some k → ∀ pw,
      (SSHClient_connect env { s with password := pw }).2 = (SSHClient_connect env s).2) ∧
    (∀ k, loadPKey env s.key_path = some k → env.reachable = true →
      ((SSHClient_connect env s).2 = .ok () ↔ keyAccepted env k = true)) ∧
    (∀ p, loadPKey env s.key_path = none → s.password = some p → env.reachable = true →
      ((SSHClient_connect env s).2 = .ok () ↔ env.pwAccepted p = true)) ∧
    (loadPKey env s.key_path = none → s.password = none → env.reachable = true →
      (SSHClient_connect env s).2 =
        .error (.authError "No authentication methods available")) := by
  refine ⟨?_, ?_, ?_, ?_, ?_, ?_⟩
  · intro hk hrsa
    rcases hkp : s.key_path with _ | kp
    · exact absurd hkp hk
    · simp [loadPKey, hrsa]
  · intro hk hrsa hec
    rcases hkp : s.key_path with _ | kp
    · exact absurd hkp hk
    · simp [loadPKey, hrsa, hec]
  · intro k hk pw
    rw [connect_snd env s hc, connect_snd env { s with password := pw } hc]
    simp [hk]
  · intro k hk hreach
    rw [connect_snd env s hc]
    simp only [hk, Option.isSome_some, if_true]
    unfold paramikoConnect
    rw [hreach]
    by_cases hacc : keyAccepted env k = true
    · simp [hacc]
    · simp [hacc]
  · intro p hk hpw hreach
    rw [connect_snd env s hc]
    simp only [hk, Option.isSome_none, if_false, hpw]
    unfold paramikoConnect
    rw [hreach]
    by_cases hacc : env.pwAccepted p = true
    · simp [hacc]
    · simp [hacc]
  · intro hk hpw hreach
    rw [connect_snd env s hc]
    simp only [hk, Option.isSome_none, if_false, hpw]
    unfold paramikoConnect
    rw [hreach]
    simp

/-- C7 witness: with no key path and a password the server accepts,
connect succeeds by password authentication. -/
theorem connect_auth_policy_witness :
    (SSHClient_connect ⟨true, false, false, false, false, fun p => p == "pw"⟩
        ⟨"h", none, some "pw", none⟩).2 = .ok () ↔
      NetEnv.pwAccepted ⟨true, false, false, false, false, fun p => p == "pw"⟩ "pw" = true :=
  (connect_auth_policy_amended ⟨true, false, false, false, false, fun p => p == "pw"⟩
    ⟨"h", none, some "pw", none⟩ rfl).2.2.2.2.1 "pw" rfl rfl rfl

/-- C8: the scheduler sleeps for the larger of zero and the interval
minus the elapsed tick time; the sleep is never negative, it is exactly
zero whenever the tick took at least the interval, and otherwise the
tick plus the sleep lasts exactly the interval. -/
theorem scheduler_sleep_no_catchup (interval elapsed : ℚ) :
    sleepDuration interval elapsed = max 0 (interval - elapsed) ∧
    0 ≤ sleepDuration interval elapsed ∧
    (interval ≤ elapsed → sleepDuration interval elapsed = 0) ∧
    (elapsed ≤ interval → elapsed + sleepDuration interval elapsed = interval) := by
  refine ⟨rfl, le_max_left _ _, fun h => ?_, fun h => ?_⟩
  · unfold sleepDuration
    rw [max_eq_left (by linarith)]
  · unfold sleepDuration
    rw [max_eq_right (by linarith : (0:ℚ) ≤ interval - elapsed)]
    ring

/-- C8 witness: a 12 second tick under a 10 second interval sleeps
zero, and a 3 second tick sleeps up to exactly the 10 second mark. -/
theorem scheduler_sleep_witness :
    sleepDuration 10 12 = 0 ∧ (3:ℚ) + sleepDuration 10 3 = 10 :=
  ⟨(scheduler_sleep_no_catchup 10 12).2.2.1 (by norm_num),
   (scheduler_sleep_no_catchup 10 3).2.2.2 (by norm_num)⟩

/-- C9: close is total and idempotent: it always leaves the session
with no client handle and touches nothing else, closing twice equals
closing once, and closing a never-connected session returns it
unchanged. -/
theorem close_idempotent_total (s : SSHClientState) :
    SSHClient_close (SSHClient_close s) = SSHClient_close s ∧
    (SSHClient_close s).client = none ∧
    (s.client = none → SSHClient_close s = s) ∧
    (SSHClient_close s).host = s.host ∧
    (SSHClient_close s).key_path = s.key_path ∧
    (SSHClient_close s).password = s.password := by
  rcases s with ⟨h, k, pw, c⟩
  cases c with
  | none => exact ⟨rfl, rfl, fun _ => rfl, rfl, rfl, rfl⟩
  | some v => exact ⟨rfl, rfl, fun hc => Option.noConfusion hc, rfl, rfl, rfl⟩

/-- C9 witness: closing a never-connected session leaves it unchanged. -/
theorem close_idempotent_witness :
    SSHClient_close ⟨"h", none, none, none⟩ = (⟨"h", none, none, none⟩ : SSHClientState) :=
  (close_idempotent_total ⟨"h", none, none, none⟩).2.2.1 rfl

/-- C10: the crossed flag is computed from the unrounded usage while
the emitted percent is the two-decimal rounding: a usage of 79.999
against threshold 80 emits percent 80 with crossed false, while a usage
of 80 emits the same percent 80 with crossed true, so the emitted
percent can reach the threshold with crossed still false and crossed is
not a function of the emitted percent. -/
theorem crossed_computed_from_unrounded_usage :
    ∃ r1 r2 : VmstatReading,
      poll_one (.ok "79.999 0.0 20.001 0.0") 80 false "t" "h" =
        [successEvent "t" "h" r1 80 false] ∧
      poll_one (.ok "80.0 0.0 20.0 0.0") 80 false "t" "h" =
        [successEvent "t" "h" r2 80 true] ∧
      r1.usage = 79999 / 1000 ∧ r2.usage = 80 ∧
      pyRound2 r1.usage = 80 ∧ pyRound2 r2.usage = 80 ∧
      (80 : ℚ) ≤ pyRound2 r1.usage ∧ ¬ (80 : ℚ) ≤ r1.usage := by
  have e79 : parseDecTok "79.999" = ((79:ℕ):ℚ) + ((999:ℕ):ℚ) / 10 ^ 3 := rfl
  have e0 : parseDecTok "0.0" = ((0:ℕ):ℚ) + ((0:ℕ):ℚ) / 10 ^ 1 := rfl
  have e80 : parseDecTok "80.0" = ((80:ℕ):ℚ) + ((0:ℕ):ℚ) / 10 ^ 1 := rfl
  have hu1 : parseDecTok "79.999" + parseDecTok "0.0" + parseDecTok "0.0" = 79999/1000 := by
    rw [e79, e0]
    push_cast
    norm_num
  have hu2 : parseDecTok "80.0" + parseDecTok "0.0" + parseDecTok "0.0" = 80 := by
    rw [e80, e0]
    push_cast
    norm_num
  refine ⟨⟨parseDecTok "79.999", parseDecTok "0.0", parseDecTok "20.001", parseDecTok "0.0",
      parseDecTok "79.999" + parseDecTok "0.0" + parseDecTok "0.0"⟩,
    ⟨parseDecTok "80.0", parseDecTok "0.0", parseDecTok "20.0", parseDecTok "0.0",
      parseDecTok "80.0" + parseDecTok "0.0" + parseDecTok "0.0"⟩,
    ?_, ?_, hu1, hu2, ?_, ?_, ?_, ?_⟩
  · have hlast : lastNonBlank "79.999 0.0 20.001 0.0" = some "79.999 0.0 20.001 0.0" := rfl
    have hcomp : compute_cpu_usage_from_vmstat "79.999 0.0 20.001 0.0" =
        .ok ⟨parseDecTok "79.999", parseDecTok "0.0", parseDecTok "20.001", parseDecTok "0.0",
             parseDecTok "79.999" + parseDecTok "0.0" + parseDecTok "0.0"⟩ := rfl
    have h1 := poll_one_ok 80 false "t" "h" hlast hcomp
    have hdec : decide ((80:ℚ) ≤ parseDecTok "79.999" + parseDecTok "0.0" +
        parseDecTok "0.0") = false := by
      apply decide_eq_false
      rw [hu1]
      norm_num
    rw [h1, hdec]
    simp
  · have hlast : lastNonBlank "80.0 0.0 20.0 0.0" = some "80.0 0.0 20.0 0.0" := rfl
    have hcomp : compute_cpu_usage_from_vmstat "80.0 0.0 20.0 0.0" =
        .ok ⟨parseDecTok "80.0", parseDecTok "0.0", parseDecTok "20.0", parseDecTok "0.0",
             parseDecTok "80.0" + parseDecTok "0.0" + parseDecTok "0.0"⟩ := rfl
    have h2 := poll_one_ok 80 false "t" "h" hlast hcomp
    have hdec : decide ((80:ℚ) ≤ parseDecTok "80.0" + parseDecTok "0.0" +
        parseDecTok "0.0") = true := by
      apply decide_eq_true
      rw [hu2]
    rw [h2, hdec]
    simp
  · show pyRound2 (parseDecTok "79.999" + parseDecTok "0.0" + parseDecTok "0.0") = 80
    rw [hu1, pyRound2_79999]
  · show pyRound2 (parseDecTok "80.0" + parseDecTok "0.0" + parseDecTok "0.0") = 80
    rw [hu2, pyRound2_80]
  · show (80:ℚ) ≤ pyRound2 (parseDecTok "79.999" + parseDecTok "0.0" + parseDecTok "0.0")
    rw [hu1, pyRound2_79999]
  · show ¬ (80:ℚ) ≤ parseDecTok "79.999" + parseDecTok "0.0" + parseDecTok "0.0"
    rw [hu1]
    norm_num

end AixCpuWatch
